import Mathlib

/-!
Verification development for the Temoa graphviz subsystem
(`temoa_model/temoa_graphviz.py`).

Python strings are modelled as `List Char` (named `Str` below), so that the
character-level padding and formatting performed by the serializer can be
reasoned about directly.  Python `None`-or-string attribute values are
modelled as `Option Str`; Python truthiness of such a value (`if a:`) is
`pyTruthy`.  Python sets of rendered statement strings are modelled as lists
deduplicated with `List.dedup`; since the serializer sorts its output, the
(unspecified) iteration order of a Python set is irrelevant to every
observable this file reasons about.
-/

abbrev Str := List Char

/-- Python truthiness of a `None`-or-`str` value: `None` and the empty string
are falsy, every nonempty string is truthy. -/
def pyTruthy : Option Str → Bool
  | none => false
  | some s => !s.isEmpty

/-- The quoting `q % n` with `q = '"%s"'` used by both serializers. -/
def quote (s : Str) : Str := '"' :: s ++ ['"']

/-- Python `'{0:<w}'.format(s)`: left-justify `s` in a field of width `w`,
padding with spaces on the right; a string already at least `w` long is
unchanged. -/
def pad (w : Nat) (s : Str) : Str := s ++ List.replicate (w - s.length) ' '

/-- Python ordering on strings (`sorted`): lexicographic by character code,
with a proper prefix ordered first. -/
def strLe : Str → Str → Bool
  | [], _ => true
  | _ :: _, [] => false
  | a :: as, b :: bs => if a < b then true else if b < a then false else strLe as bs

theorem strLe_trans (a b c : Str) (hab : strLe a b = true) (hbc : strLe b c = true) :
    strLe a c = true := by
  induction a generalizing b c with
  | nil => cases c <;> simp [strLe]
  | cons x xs ih =>
    cases b with
    | nil => simp [strLe] at hab
    | cons y ys =>
      cases c with
      | nil => simp [strLe] at hbc
      | cons z zs =>
        simp only [strLe] at hab hbc ⊢
        rcases lt_trichotomy x y with hxy | hxy | hxy
        · rcases lt_trichotomy y z with hyz | hyz | hyz
          · simp [lt_trans hxy hyz]
          · subst hyz; simp [hxy]
          · simp [asymm hyz, hyz] at hbc
        · subst hxy
          simp [lt_irrefl] at hab
          rcases lt_trichotomy x z with hxz | hxz | hxz
          · simp [hxz]
          · subst hxz
            simp [lt_irrefl] at hbc ⊢
            exact ih _ _ hab hbc
          · simp [asymm hxz, hxz] at hbc
        · simp [asymm hxy, hxy] at hab

theorem strLe_total (a b : Str) : (strLe a b || strLe b a) = true := by
  induction a generalizing b with
  | nil => cases b <;> simp [strLe]
  | cons x xs ih =>
    cases b with
    | nil => simp [strLe]
    | cons y ys =>
      simp only [strLe]
      rcases lt_trichotomy x y with h | h | h
      · simp [h]
      · subst h
        simp only [lt_irrefl, if_false]
        exact ih ys
      · simp [h, asymm h]

theorem strLe_antisymm (a b : Str) (hab : strLe a b = true) (hba : strLe b a = true) :
    a = b := by
  induction a generalizing b with
  | nil =>
    cases b with
    | nil => rfl
    | cons y ys => simp [strLe] at hba
  | cons x xs ih =>
    cases b with
    | nil => simp [strLe] at hab
    | cons y ys =>
      simp only [strLe] at hab hba
      rcases lt_trichotomy x y with h | h | h
      · simp [asymm h, h] at hba
      · subst h
        simp [lt_irrefl] at hab hba
        rw [ih _ hab hba]
      · simp [asymm h, h] at hab

/-- The ordering used by Python `sorted` on strings, as a Prop relation. -/
def strLeP (a b : Str) : Prop := strLe a b = true

instance : DecidableRel strLeP :=
  fun a b => inferInstanceAs (Decidable (strLe a b = true))

instance : IsTrans Str strLeP := ⟨fun a b c => strLe_trans a b c⟩

instance : IsTotal Str strLeP :=
  ⟨fun a b => Bool.or_eq_true _ _ |>.mp (strLe_total a b)⟩

instance : IsAntisymm Str strLeP := ⟨strLe_antisymm⟩

/-- Python `sorted` on a collection of strings. -/
def sortLines (l : List Str) : List Str := l.insertionSort strLeP

theorem sortLines_perm (l : List Str) : (sortLines l).Perm l :=
  List.perm_insertionSort strLeP l

theorem sortLines_sorted (l : List Str) : List.Sorted strLeP (sortLines l) :=
  List.sorted_insertionSort strLeP l

/-- Two sorted line lists holding the same multiset of lines are equal, hence
Python `sorted` applied to equal sets yields identical lists. -/
theorem sortLines_eq_of_perm {l₁ l₂ : List Str} (h : l₁.Perm l₂) :
    sortLines l₁ = sortLines l₂ :=
  List.eq_of_perm_of_sorted
    (((sortLines_perm l₁).trans h).trans (sortLines_perm l₂).symm)
    (sortLines_sorted l₁) (sortLines_sorted l₂)

/-! ### The serializer `create_text_nodes` / `create_text_edges`

Source: `temoa_graphviz.py` lines 20-88.  A node is an `(id, attribute)`
pair, an edge a `(source, destination, attribute)` triple.  The rendered
statement formats are

  nfmt_attr = `'{0:<maxl} [ {1} ] ;'`   nfmt_noa = `'{0} ;'`
  efmt_attr = `'{0:<maxl} -> {1:<maxr} [ {2} ] ;'`
  efmt_noa  = `'{0:<maxl} -> {1} ;'`

where `maxl` (and for edges `maxr`) is two plus the maximum id length over
the whole input collection (`max(map(_getLen(0), nodes)) + 2`). -/

abbrev NodeT := Str × Option Str

abbrev EdgeT := Str × Str × Option Str

/-- `max(map(_getLen(0), nodes)) + 2` of `create_text_nodes` (line 37). -/
def nodes_maxl (nodes : List NodeT) : Nat :=
  (nodes.map (fun p => p.1.length)).foldr max 0 + 2

/-- `nfmt_attr.format(q % n, a)`: the rendered statement of an attributed
node. -/
def node_line_attr (w : Nat) (n a : Str) : Str :=
  pad w (quote n) ++ [' ', '[', ' '] ++ a ++ [' ', ']', ' ', ';']

/-- `nfmt_noa.format(q % n)`: the rendered statement of an attribute-less
node; no padding at all. -/
def node_line_noa (n : Str) : Str := quote n ++ [' ', ';']

/-- The sorted deduplicated statement lines of `create_text_nodes` (the
Python set `gviz` of lines 47-48, sorted as on line 52). -/
def create_text_nodes_lines (nodes : List NodeT) : List Str :=
  let w := nodes_maxl nodes
  let gviz :=
    ((nodes.filter (fun p => pyTruthy p.2)).map
        (fun p => node_line_attr w p.1 (p.2.getD [])) ++
      (nodes.filter (fun p => !pyTruthy p.2)).map
        (fun p => node_line_noa p.1)).dedup
  sortLines gviz

/-- `create_text_nodes` (lines 20-52): empty input short-circuits to a fixed
comment; otherwise the sorted distinct statements are joined by a newline
plus `indent` tabs. -/
def create_text_nodes (nodes : List NodeT) (indent : Nat) : Str :=
  if nodes.isEmpty then ('/' :: '/' :: " no nodes in this section".data)
  else ('\n' :: List.replicate indent '\t').intercalate (create_text_nodes_lines nodes)

/-- `max(map(_getLen(0), edges)) + 2` of `create_text_edges` (lines 73-74). -/
def edges_maxl (edges : List EdgeT) : Nat :=
  (edges.map (fun e => e.1.length)).foldr max 0 + 2

/-- `max(map(_getLen(1), edges)) + 2` of `create_text_edges` (lines 73-75). -/
def edges_maxr (edges : List EdgeT) : Nat :=
  (edges.map (fun e => e.2.1.length)).foldr max 0 + 2

/-- `efmt_attr.format(q % i, q % t, a)`: both endpoint columns padded. -/
def edge_line_attr (wl wr : Nat) (s d a : Str) : Str :=
  pad wl (quote s) ++ [' ', '-', '>', ' '] ++ pad wr (quote d) ++
    [' ', '[', ' '] ++ a ++ [' ', ']', ' ', ';']

/-- `efmt_noa.format(q % i, q % t)`: source column padded, destination not. -/
def edge_line_noa (wl : Nat) (s d : Str) : Str :=
  pad wl (quote s) ++ [' ', '-', '>', ' '] ++ quote d ++ [' ', ';']

/-- The sorted deduplicated statement lines of `create_text_edges` (the
Python set `gviz` of lines 83-84, sorted as on line 88). -/
def create_text_edges_lines (edges : List EdgeT) : List Str :=
  let wl := edges_maxl edges
  let wr := edges_maxr edges
  let gviz :=
    ((edges.filter (fun e => pyTruthy e.2.2)).map
        (fun e => edge_line_attr wl wr e.1 e.2.1 (e.2.2.getD [])) ++
      (edges.filter (fun e => !pyTruthy e.2.2)).map
        (fun e => edge_line_noa wl e.1 e.2.1)).dedup
  sortLines gviz

/-- `create_text_edges` (lines 55-88). -/
def create_text_edges (edges : List EdgeT) (indent : Nat) : Str :=
  if edges.isEmpty then ('/' :: '/' :: " no edges in this section".data)
  else ('\n' :: List.replicate indent '\t').intercalate (create_text_edges_lines edges)

example :
    create_text_nodes [("A".data, none), ("B".data, some "color=red".data)] 1 =
      ('"' :: 'A' :: '"' :: ' ' :: ';' :: '\n' :: '\t' ::
        "\"B\" [ color=red ] ;".data) := by decide

example :
    create_text_edges
      [("x".data, "y".data, none), ("x".data, "y".data, none)] 1 =
      "\"x\" -> \"y\" ;".data := by decide

/-! ### Order-independence of the serializer (C1) -/

instance maxLeftCommutative : LeftCommutative (max : Nat → Nat → Nat) :=
  ⟨fun a b c => by omega⟩

theorem nodes_maxl_perm {n₁ n₂ : List NodeT} (h : n₁.Perm n₂) :
    nodes_maxl n₁ = nodes_maxl n₂ := by
  unfold nodes_maxl
  rw [(h.map _).foldr_eq]

theorem edges_maxl_perm {e₁ e₂ : List EdgeT} (h : e₁.Perm e₂) :
    edges_maxl e₁ = edges_maxl e₂ := by
  unfold edges_maxl
  rw [(h.map _).foldr_eq]

theorem edges_maxr_perm {e₁ e₂ : List EdgeT} (h : e₁.Perm e₂) :
    edges_maxr e₁ = edges_maxr e₂ := by
  unfold edges_maxr
  rw [(h.map _).foldr_eq]

theorem create_text_nodes_lines_perm {n₁ n₂ : List NodeT} (h : n₁.Perm n₂) :
    create_text_nodes_lines n₁ = create_text_nodes_lines n₂ := by
  unfold create_text_nodes_lines
  rw [nodes_maxl_perm h]
  exact sortLines_eq_of_perm
    (((h.filter _).map _).append ((h.filter _).map _)).dedup

theorem create_text_edges_lines_perm {e₁ e₂ : List EdgeT} (h : e₁.Perm e₂) :
    create_text_edges_lines e₁ = create_text_edges_lines e₂ := by
  unfold create_text_edges_lines
  rw [edges_maxl_perm h, edges_maxr_perm h]
  exact sortLines_eq_of_perm
    (((h.filter _).map _).append ((h.filter _).map _)).dedup

theorem perm_isEmpty_eq {α : Type} {l₁ l₂ : List α} (h : l₁.Perm l₂) :
    l₁.isEmpty = l₂.isEmpty := by
  cases l₁ with
  | nil => rw [h.nil_eq]
  | cons x xs =>
    cases l₂ with
    | nil => exact absurd h.symm.nil_eq (by simp)
    | cons y ys => rfl

/-- Claim C1: serialization is order-independent and deterministic.  Applied
to any two permutations of the same logical collection of node tuples
(resp. edge tuples) and the same indent, `create_text_nodes`
(resp. `create_text_edges`) returns byte-identical output text. -/
theorem temoa_C1_serialization_order_independent
    {n₁ n₂ : List NodeT} {e₁ e₂ : List EdgeT}
    (hn : n₁.Perm n₂) (he : e₁.Perm e₂) (indent : Nat) :
    create_text_nodes n₁ indent = create_text_nodes n₂ indent ∧
      create_text_edges e₁ indent = create_text_edges e₂ indent := by
  constructor
  · unfold create_text_nodes
    rw [perm_isEmpty_eq hn, create_text_nodes_lines_perm hn]
  · unfold create_text_edges
    rw [perm_isEmpty_eq he, create_text_edges_lines_perm he]

/-- Witness for C1 at a concrete pair of permuted inputs. -/
theorem temoa_C1_witness :
    ([(['A'], (none : Option Str)), (['B'], some ['x'])].Perm
        [(['B'], some ['x']), (['A'], none)] ∧
      [(['a'], ['b'], (none : Option Str))].Perm [(['a'], ['b'], none)]) ∧
      create_text_nodes [(['A'], none), (['B'], some ['x'])] 1 =
          create_text_nodes [(['B'], some ['x']), (['A'], none)] 1 ∧
        create_text_edges [(['a'], ['b'], none)] 1 =
          create_text_edges [(['a'], ['b'], none)] 1 :=
  ⟨⟨by decide, by decide⟩,
    temoa_C1_serialization_order_independent (by decide) (by decide) 1⟩

/-! ### Empty input (C4)

`create_text_nodes` and `create_text_edges` (lines 30-31 and 65-66) return a
fixed comment string on any empty input.  Both embeddings are total Lean
functions; the only runtime assertion in the source
(`assert(len(nodes) == sum(1 for a, b in nodes))`, lines 34 and 69) is
satisfied by every well-shaped 2-tuple (resp. 3-tuple) collection, which the
types of `NodeT` and `EdgeT` enforce. -/

/-- Claim C4: for every empty input collection and every indent,
`create_text_nodes` and `create_text_edges` return the fixed placeholder
comments, and never the empty string. -/
theorem temoa_C4_empty_input_placeholder (indent : Nat) :
    create_text_nodes [] indent = ('/' :: '/' :: " no nodes in this section".data) ∧
      create_text_edges [] indent = ('/' :: '/' :: " no edges in this section".data) ∧
      create_text_nodes [] indent ≠ [] ∧ create_text_edges [] indent ≠ [] :=
  ⟨rfl, rfl, fun h => List.noConfusion h, fun h => List.noConfusion h⟩

/-! ### Length and position facts about rendered statements -/

theorem quote_length (s : Str) : (quote s).length = s.length + 2 := by
  simp [quote]

theorem pad_length_of_le {w : Nat} {s : Str} (h : s.length ≤ w) :
    (pad w s).length = w := by
  simp [pad]
  omega

theorem le_foldr_max {x : Nat} {l : List Nat} (h : x ∈ l) : x ≤ l.foldr max 0 := by
  induction l with
  | nil => cases h
  | cons y ys ih =>
    rcases List.mem_cons.mp h with h | h
    · subst h; exact le_max_left _ _
    · exact le_trans (ih h) (le_max_right _ _)

theorem nodes_maxl_bound {nodes : List NodeT} {p : NodeT} (h : p ∈ nodes) :
    p.1.length + 2 ≤ nodes_maxl nodes := by
  unfold nodes_maxl
  have : p.1.length ∈ nodes.map (fun q => q.1.length) := List.mem_map_of_mem _ h
  have := le_foldr_max this
  omega

theorem edges_maxl_bound {edges : List EdgeT} {e : EdgeT} (h : e ∈ edges) :
    e.1.length + 2 ≤ edges_maxl edges := by
  unfold edges_maxl
  have : e.1.length ∈ edges.map (fun q => q.1.length) := List.mem_map_of_mem _ h
  have := le_foldr_max this
  omega

theorem edges_maxr_bound {edges : List EdgeT} {e : EdgeT} (h : e ∈ edges) :
    e.2.1.length + 2 ≤ edges_maxr edges := by
  unfold edges_maxr
  have : e.2.1.length ∈ edges.map (fun q => q.2.1.length) := List.mem_map_of_mem _ h
  have := le_foldr_max this
  omega

theorem foldr_max_init (A : List Nat) (b : Nat) :
    A.foldr max b = max (A.foldr max 0) b := by
  induction A with
  | nil => simp
  | cons x xs ih => simp [List.foldr_cons, ih]; omega

/-! ### Injectivity of rendered statements

Distinct canonical entries (attribute either absent or a nonempty string)
render to distinct statement lines, provided every id fits in the padding
width -- which `nodes_maxl`/`edges_maxl`/`edges_maxr` guarantee for the ids
occurring in the input itself. -/

theorem pad_getElem_space (s : Str) (k i : Nat) (hi : s.length ≤ i)
    (hik : i < s.length + k) :
    (s ++ List.replicate k ' ')[i]? = some ' ' := by
  rw [List.getElem?_append, if_neg (by omega), List.getElem?_replicate,
    if_pos (by omega)]

theorem quote_getElem_last (m : Str) : (quote m)[m.length + 1]? = some '"' := by
  show ('"' :: (m ++ ['"']))[m.length + 1]? = some '"'
  rw [List.getElem?_cons_succ, List.getElem?_append, if_neg (by simp)]
  simp

theorem pad_quote_getElem_quote (w : Nat) (m : Str) :
    (pad w (quote m))[m.length + 1]? = some '"' := by
  unfold pad
  rw [List.getElem?_append, if_pos (by rw [quote_length]; omega)]
  exact quote_getElem_last m

theorem pad_quote_ne {w : Nat} {n m : Str} (hlt : n.length < m.length)
    (hm : m.length + 2 ≤ w) : pad w (quote n) ≠ pad w (quote m) := by
  intro h
  have h1 : (pad w (quote n))[m.length + 1]? = some ' ' := by
    unfold pad
    exact pad_getElem_space _ _ _ (by rw [quote_length]; omega)
      (by rw [quote_length]; have : (quote n).length ≤ w := by rw [quote_length]; omega
          omega)
  rw [h, pad_quote_getElem_quote] at h1
  exact absurd h1 (by decide)

theorem quote_inj {n m : Str} (h : quote n = quote m) : n = m := by
  unfold quote at h
  have h2 : n ++ ['"'] = m ++ ['"'] := by injection h
  exact (List.append_inj' h2 rfl).1

theorem pad_quote_inj {w : Nat} {n m : Str} (hn : n.length + 2 ≤ w)
    (hm : m.length + 2 ≤ w) (h : pad w (quote n) = pad w (quote m)) : n = m := by
  rcases Nat.lt_trichotomy n.length m.length with hlt | heq | hgt
  · exact absurd h (pad_quote_ne hlt hm)
  · unfold pad at h
    have := List.append_inj h (by rw [quote_length, quote_length, heq])
    exact quote_inj this.1
  · exact absurd h.symm (pad_quote_ne hgt hn)

theorem node_line_attr_inj {w : Nat} {n a m b : Str}
    (hn : n.length + 2 ≤ w) (hm : m.length + 2 ≤ w)
    (h : node_line_attr w n a = node_line_attr w m b) : n = m ∧ a = b := by
  unfold node_line_attr at h
  simp only [List.append_assoc] at h
  have h1 := List.append_inj h
    (by rw [pad_length_of_le (by rw [quote_length]; omega),
            pad_length_of_le (by rw [quote_length]; omega)])
  refine ⟨pad_quote_inj hn hm h1.1, ?_⟩
  have h2 := h1.2
  simp only [List.cons_append, List.nil_append, List.cons.injEq, true_and] at h2
  exact (List.append_inj' h2 rfl).1

theorem node_line_noa_inj {n m : Str} (h : node_line_noa n = node_line_noa m) :
    n = m := by
  unfold node_line_noa at h
  exact quote_inj (List.append_inj' h rfl).1

theorem node_line_attr_ne_noa (w : Nat) (n a m : Str) :
    node_line_attr w n a ≠ node_line_noa m := by
  intro h
  have h2 := congrArg (fun l => l.reverse[2]?) h
  simp [node_line_attr, node_line_noa, pad, quote, List.reverse_append] at h2

theorem edge_line_attr_inj {wl wr : Nat} {s d a s2 d2 b : Str}
    (hs : s.length + 2 ≤ wl) (hs2 : s2.length + 2 ≤ wl)
    (hd : d.length + 2 ≤ wr) (hd2 : d2.length + 2 ≤ wr)
    (h : edge_line_attr wl wr s d a = edge_line_attr wl wr s2 d2 b) :
    s = s2 ∧ d = d2 ∧ a = b := by
  unfold edge_line_attr at h
  simp only [List.append_assoc] at h
  have h1 := List.append_inj h
    (by rw [pad_length_of_le (by rw [quote_length]; omega),
            pad_length_of_le (by rw [quote_length]; omega)])
  refine ⟨pad_quote_inj hs hs2 h1.1, ?_⟩
  have h2 := h1.2
  simp only [List.cons_append, List.nil_append, List.cons.injEq, true_and] at h2
  have h3 := List.append_inj h2
    (by rw [pad_length_of_le (by rw [quote_length]; omega),
            pad_length_of_le (by rw [quote_length]; omega)])
  refine ⟨pad_quote_inj hd hd2 h3.1, ?_⟩
  have h4 := h3.2
  simp only [List.cons.injEq, true_and] at h4
  exact (List.append_inj' h4 rfl).1

theorem edge_line_noa_inj {wl : Nat} {s d s2 d2 : Str}
    (hs : s.length + 2 ≤ wl) (hs2 : s2.length + 2 ≤ wl)
    (h : edge_line_noa wl s d = edge_line_noa wl s2 d2) : s = s2 ∧ d = d2 := by
  unfold edge_line_noa at h
  simp only [List.append_assoc] at h
  have h1 := List.append_inj h
    (by rw [pad_length_of_le (by rw [quote_length]; omega),
            pad_length_of_le (by rw [quote_length]; omega)])
  refine ⟨pad_quote_inj hs hs2 h1.1, ?_⟩
  have h2 := h1.2
  simp only [List.cons_append, List.nil_append, List.cons.injEq, true_and] at h2
  exact quote_inj (List.append_inj' h2 rfl).1

theorem edge_line_attr_ne_noa (wl wr wl2 : Nat) (s d a s2 d2 : Str) :
    edge_line_attr wl wr s d a ≠ edge_line_noa wl2 s2 d2 := by
  intro h
  have h2 := congrArg (fun l => l.reverse[2]?) h
  simp [edge_line_attr, edge_line_noa, pad, quote, List.reverse_append] at h2

/-! ### Canonical entries and set-semantics counting (C2)

The serializer deduplicates *rendered statements*, not input tuples.  An
absent attribute (`None`) and an empty-string attribute are both falsy in
Python and render identically, so entries differing only in that distinction
collapse.  `canonAttr` performs exactly that identification. -/

def canonAttr (a : Option Str) : Option Str := if pyTruthy a then a else none

theorem canonAttr_cases (a : Option Str) :
    canonAttr a = none ∨ ∃ s, canonAttr a = some s ∧ s ≠ [] := by
  cases a with
  | none => left; rfl
  | some s =>
    cases s with
    | nil => left; rfl
    | cons c cs => right; exact ⟨c :: cs, rfl, by simp⟩

theorem pyTruthy_canonAttr (a : Option Str) : pyTruthy (canonAttr a) = pyTruthy a := by
  cases a with
  | none => rfl
  | some s => cases s <;> simp [canonAttr, pyTruthy]

theorem dedup_length_map_of_injOn {α β : Type} [DecidableEq α] [DecidableEq β]
    (f : α → β) (l : List α)
    (hinj : ∀ x ∈ l, ∀ y ∈ l, f x = f y → x = y) :
    ((l.map f).dedup).length = l.dedup.length := by
  induction l with
  | nil => rfl
  | cons x xs ih =>
    have hmem : f x ∈ xs.map f ↔ x ∈ xs := by
      constructor
      · intro h
        rcases List.mem_map.mp h with ⟨y, hy, hfy⟩
        rw [hinj y (List.mem_cons_of_mem x hy) x (List.mem_cons_self x xs) hfy] at hy
        exact hy
      · exact List.mem_map_of_mem f
    have hinj2 : ∀ u ∈ xs, ∀ v ∈ xs, f u = f v → u = v := fun u hu v hv =>
      hinj u (List.mem_cons_of_mem x hu) v (List.mem_cons_of_mem x hv)
    by_cases hx : x ∈ xs
    · rw [List.map_cons, List.dedup_cons_of_mem (hmem.mpr hx),
        List.dedup_cons_of_mem hx]
      exact ih hinj2
    · rw [List.map_cons, List.dedup_cons_of_not_mem (fun h => hx (hmem.mp h)),
        List.dedup_cons_of_not_mem hx, List.length_cons, List.length_cons,
        ih hinj2]

theorem pyTruthy_some_of_ne {s : Str} (h : s ≠ []) : pyTruthy (some s) = true := by
  cases s with
  | nil => exact absurd rfl h
  | cons c cs => simp [pyTruthy]

/-- The statement a single node entry renders to (branch of lines 47-48). -/
def node_render (w : Nat) (p : NodeT) : Str :=
  if pyTruthy p.2 then node_line_attr w p.1 (p.2.getD []) else node_line_noa p.1

/-- The statement a single edge entry renders to (branch of lines 83-84). -/
def edge_render (wl wr : Nat) (e : EdgeT) : Str :=
  if pyTruthy e.2.2 then edge_line_attr wl wr e.1 e.2.1 (e.2.2.getD [])
  else edge_line_noa wl e.1 e.2.1

/-- A node entry with its attribute canonicalized (falsy attributes become
`none`); two entries render identically iff their canonical forms are
equal. -/
def canonNode (p : NodeT) : NodeT := (p.1, canonAttr p.2)

/-- An edge entry with its attribute canonicalized. -/
def canonEdge (e : EdgeT) : EdgeT := (e.1, e.2.1, canonAttr e.2.2)

theorem mem_sortLines {x : Str} {l : List Str} : x ∈ sortLines l ↔ x ∈ l :=
  List.mem_insertionSort strLeP

theorem create_text_nodes_lines_eq (nodes : List NodeT) :
    create_text_nodes_lines nodes =
      sortLines ((nodes.map (node_render (nodes_maxl nodes))).dedup) := by
  unfold create_text_nodes_lines
  apply sortLines_eq_of_perm
  apply List.Perm.dedup
  have h1 : (nodes.filter (fun p => pyTruthy p.2)).map
      (fun p => node_line_attr (nodes_maxl nodes) p.1 (p.2.getD [])) =
      (nodes.filter (fun p => pyTruthy p.2)).map (node_render (nodes_maxl nodes)) :=
    List.map_congr_left (fun p hp => by
      simp [node_render, (List.mem_filter.mp hp).2])
  have h2 : (nodes.filter (fun p => !pyTruthy p.2)).map
      (fun p => node_line_noa p.1) =
      (nodes.filter (fun p => !pyTruthy p.2)).map (node_render (nodes_maxl nodes)) :=
    List.map_congr_left (fun p hp => by
      have := (List.mem_filter.mp hp).2
      simp only [Bool.not_eq_true'] at this
      simp [node_render, this])
  rw [h1, h2, ← List.map_append]
  exact (List.filter_append_perm _ nodes).map _

theorem create_text_edges_lines_eq (edges : List EdgeT) :
    create_text_edges_lines edges =
      sortLines ((edges.map (edge_render (edges_maxl edges) (edges_maxr edges))).dedup) := by
  unfold create_text_edges_lines
  apply sortLines_eq_of_perm
  apply List.Perm.dedup
  have h1 : (edges.filter (fun e => pyTruthy e.2.2)).map
      (fun e => edge_line_attr (edges_maxl edges) (edges_maxr edges) e.1 e.2.1 (e.2.2.getD [])) =
      (edges.filter (fun e => pyTruthy e.2.2)).map
        (edge_render (edges_maxl edges) (edges_maxr edges)) :=
    List.map_congr_left (fun e he => by
      simp [edge_render, (List.mem_filter.mp he).2])
  have h2 : (edges.filter (fun e => !pyTruthy e.2.2)).map
      (fun e => edge_line_noa (edges_maxl edges) e.1 e.2.1) =
      (edges.filter (fun e => !pyTruthy e.2.2)).map
        (edge_render (edges_maxl edges) (edges_maxr edges)) :=
    List.map_congr_left (fun e he => by
      have := (List.mem_filter.mp he).2
      simp only [Bool.not_eq_true'] at this
      simp [edge_render, this])
  rw [h1, h2, ← List.map_append]
  exact (List.filter_append_perm _ edges).map _

theorem node_render_canon (w : Nat) (p : NodeT) :
    node_render w (canonNode p) = node_render w p := by
  rcases p with ⟨n, a⟩
  cases a with
  | none => rfl
  | some s => cases s <;> simp [canonNode, canonAttr, node_render, pyTruthy]

theorem edge_render_canon (wl wr : Nat) (e : EdgeT) :
    edge_render wl wr (canonEdge e) = edge_render wl wr e := by
  rcases e with ⟨s, d, a⟩
  cases a with
  | none => rfl
  | some t => cases t <;> simp [canonEdge, canonAttr, edge_render, pyTruthy]

theorem create_text_nodes_lines_length (nodes : List NodeT) :
    (create_text_nodes_lines nodes).length = ((nodes.map canonNode).dedup).length := by
  rw [create_text_nodes_lines_eq, (sortLines_perm _).length_eq]
  have hmap : (nodes.map canonNode).map (node_render (nodes_maxl nodes)) =
      nodes.map (node_render (nodes_maxl nodes)) := by
    rw [List.map_map]
    exact List.map_congr_left (fun p _ => node_render_canon _ p)
  rw [← hmap]
  apply dedup_length_map_of_injOn
  intro x hx y hy hxy
  rcases List.mem_map.mp hx with ⟨u, hu, rfl⟩
  rcases List.mem_map.mp hy with ⟨v, hv, rfl⟩
  have hub : u.1.length + 2 ≤ nodes_maxl nodes := nodes_maxl_bound hu
  have hvb : v.1.length + 2 ≤ nodes_maxl nodes := nodes_maxl_bound hv
  rcases canonAttr_cases u.2 with hcu | ⟨s, hcu, hs⟩ <;>
    rcases canonAttr_cases v.2 with hcv | ⟨t, hcv, ht⟩
  · simp only [canonNode, hcu, hcv, node_render, pyTruthy] at hxy ⊢
    simp only [if_neg Bool.false_ne_true] at hxy
    rw [node_line_noa_inj hxy]
  · have htt := pyTruthy_some_of_ne ht
    have hx2 : node_render (nodes_maxl nodes) (canonNode u) = node_line_noa u.1 := by
      simp [node_render, canonNode, hcu, pyTruthy]
    have hy2 : node_render (nodes_maxl nodes) (canonNode v) =
        node_line_attr (nodes_maxl nodes) v.1 t := by
      simp [node_render, canonNode, hcv, htt]
    rw [hx2, hy2] at hxy
    exact absurd hxy.symm (node_line_attr_ne_noa _ _ _ _)
  · have hst := pyTruthy_some_of_ne hs
    have hx2 : node_render (nodes_maxl nodes) (canonNode u) =
        node_line_attr (nodes_maxl nodes) u.1 s := by
      simp [node_render, canonNode, hcu, hst]
    have hy2 : node_render (nodes_maxl nodes) (canonNode v) = node_line_noa v.1 := by
      simp [node_render, canonNode, hcv, pyTruthy]
    rw [hx2, hy2] at hxy
    exact absurd hxy (node_line_attr_ne_noa _ _ _ _)
  · have hst := pyTruthy_some_of_ne hs
    have htt := pyTruthy_some_of_ne ht
    simp only [canonNode, hcu, hcv, node_render, hst, htt, if_true,
      Option.getD_some] at hxy
    obtain ⟨h1, h2⟩ := node_line_attr_inj hub hvb hxy
    simp [canonNode, hcu, hcv, h1, h2]

theorem create_text_edges_lines_length (edges : List EdgeT) :
    (create_text_edges_lines edges).length = ((edges.map canonEdge).dedup).length := by
  rw [create_text_edges_lines_eq, (sortLines_perm _).length_eq]
  have hmap : (edges.map canonEdge).map
      (edge_render (edges_maxl edges) (edges_maxr edges)) =
      edges.map (edge_render (edges_maxl edges) (edges_maxr edges)) := by
    rw [List.map_map]
    exact List.map_congr_left (fun e _ => edge_render_canon _ _ e)
  rw [← hmap]
  apply dedup_length_map_of_injOn
  intro x hx y hy hxy
  rcases List.mem_map.mp hx with ⟨u, hu, rfl⟩
  rcases List.mem_map.mp hy with ⟨v, hv, rfl⟩
  have hul : u.1.length + 2 ≤ edges_maxl edges := edges_maxl_bound hu
  have hvl : v.1.length + 2 ≤ edges_maxl edges := edges_maxl_bound hv
  have hur : u.2.1.length + 2 ≤ edges_maxr edges := edges_maxr_bound hu
  have hvr : v.2.1.length + 2 ≤ edges_maxr edges := edges_maxr_bound hv
  rcases canonAttr_cases u.2.2 with hcu | ⟨s, hcu, hs⟩ <;>
    rcases canonAttr_cases v.2.2 with hcv | ⟨t, hcv, ht⟩
  · simp only [canonEdge, hcu, hcv, edge_render, pyTruthy] at hxy ⊢
    simp only [if_neg Bool.false_ne_true] at hxy
    obtain ⟨h1, h2⟩ := edge_line_noa_inj hul hvl hxy
    simp [h1, h2]
  · have htt := pyTruthy_some_of_ne ht
    have hx2 : edge_render (edges_maxl edges) (edges_maxr edges) (canonEdge u) =
        edge_line_noa (edges_maxl edges) u.1 u.2.1 := by
      simp [edge_render, canonEdge, hcu, pyTruthy]
    have hy2 : edge_render (edges_maxl edges) (edges_maxr edges) (canonEdge v) =
        edge_line_attr (edges_maxl edges) (edges_maxr edges) v.1 v.2.1 t := by
      simp [edge_render, canonEdge, hcv, htt]
    rw [hx2, hy2] at hxy
    exact absurd hxy.symm (edge_line_attr_ne_noa _ _ _ _ _ _ _ _)
  · have hst := pyTruthy_some_of_ne hs
    have hx2 : edge_render (edges_maxl edges) (edges_maxr edges) (canonEdge u) =
        edge_line_attr (edges_maxl edges) (edges_maxr edges) u.1 u.2.1 s := by
      simp [edge_render, canonEdge, hcu, hst]
    have hy2 : edge_render (edges_maxl edges) (edges_maxr edges) (canonEdge v) =
        edge_line_noa (edges_maxl edges) v.1 v.2.1 := by
      simp [edge_render, canonEdge, hcv, pyTruthy]
    rw [hx2, hy2] at hxy
    exact absurd hxy (edge_line_attr_ne_noa _ _ _ _ _ _ _ _)
  · have hst := pyTruthy_some_of_ne hs
    have htt := pyTruthy_some_of_ne ht
    simp only [canonEdge, hcu, hcv, edge_render, hst, htt, if_true,
      Option.getD_some] at hxy
    obtain ⟨h1, h2, h3⟩ := edge_line_attr_inj hul hvl hur hvr hxy
    simp [canonEdge, hcu, hcv, h1, h2, h3]

theorem create_text_nodes_lines_congr {n₁ n₂ : List NodeT}
    (hw : nodes_maxl n₁ = nodes_maxl n₂) (hm : ∀ x, x ∈ n₁ ↔ x ∈ n₂) :
    create_text_nodes_lines n₁ = create_text_nodes_lines n₂ := by
  rw [create_text_nodes_lines_eq, create_text_nodes_lines_eq, hw]
  apply sortLines_eq_of_perm
  apply List.perm_of_nodup_nodup_toFinset_eq (List.nodup_dedup _) (List.nodup_dedup _)
  ext a
  simp only [List.mem_toFinset, List.mem_dedup, List.mem_map]
  constructor
  · rintro ⟨p, hp, rfl⟩; exact ⟨p, (hm p).mp hp, rfl⟩
  · rintro ⟨p, hp, rfl⟩; exact ⟨p, (hm p).mpr hp, rfl⟩

theorem create_text_edges_lines_congr {e₁ e₂ : List EdgeT}
    (hl : edges_maxl e₁ = edges_maxl e₂) (hr : edges_maxr e₁ = edges_maxr e₂)
    (hm : ∀ x, x ∈ e₁ ↔ x ∈ e₂) :
    create_text_edges_lines e₁ = create_text_edges_lines e₂ := by
  rw [create_text_edges_lines_eq, create_text_edges_lines_eq, hl, hr]
  apply sortLines_eq_of_perm
  apply List.perm_of_nodup_nodup_toFinset_eq (List.nodup_dedup _) (List.nodup_dedup _)
  ext a
  simp only [List.mem_toFinset, List.mem_dedup, List.mem_map]
  constructor
  · rintro ⟨p, hp, rfl⟩; exact ⟨p, (hm p).mp hp, rfl⟩
  · rintro ⟨p, hp, rfl⟩; exact ⟨p, (hm p).mpr hp, rfl⟩

theorem foldr_max_append_self (A : List Nat) : (A ++ A).foldr max 0 = A.foldr max 0 := by
  rw [List.foldr_append, foldr_max_init]
  exact Nat.max_self _

theorem isEmpty_append_self {α : Type} (l : List α) : (l ++ l).isEmpty = l.isEmpty := by
  cases l <;> rfl

/-- Counterexample to Claim C2 as stated.  The input collection contains the
duplicate entry `('A', None)` twice, plus the distinct entry `('A', '')`
(empty-string attribute).  There are two distinct entries, but the rendered
output holds a single line, because an absent attribute and an empty
attribute are both falsy and render identically (`'"A" ;'`). -/
theorem temoa_C2_counterexample :
    (create_text_nodes_lines [(['A'], none), (['A'], none), (['A'], some [])]).length = 1 ∧
      ([(['A'], (none : Option Str)), (['A'], none), (['A'], some [])].dedup).length = 2 ∧
      create_text_nodes [(['A'], none), (['A'], none), (['A'], some [])] 1 =
        ['"', 'A', '"', ' ', ';'] := by decide

/-- Claim C2 (amended): duplicates are removed with set semantics at the
level of rendered statements: the output of `create_text_nodes`
(resp. `create_text_edges`) contains exactly one line per distinct entry,
where entries are identified up to canonicalization of falsy attributes
(`None` and the empty string render identically); in particular repeated
identical additions have no additional effect on the output. -/
theorem temoa_C2_set_semantics (nodes : List NodeT) (edges : List EdgeT) (indent : Nat) :
    (create_text_nodes_lines nodes).length = ((nodes.map canonNode).dedup).length ∧
      (create_text_edges_lines edges).length = ((edges.map canonEdge).dedup).length ∧
      create_text_nodes (nodes ++ nodes) indent = create_text_nodes nodes indent ∧
      create_text_edges (edges ++ edges) indent = create_text_edges edges indent := by
  refine ⟨create_text_nodes_lines_length nodes, create_text_edges_lines_length edges, ?_, ?_⟩
  · have hline : create_text_nodes_lines (nodes ++ nodes) = create_text_nodes_lines nodes :=
      create_text_nodes_lines_congr
        (by unfold nodes_maxl; rw [List.map_append, foldr_max_append_self])
        (fun x => by simp [List.mem_append])
    unfold create_text_nodes
    rw [isEmpty_append_self, hline]
  · have hline : create_text_edges_lines (edges ++ edges) = create_text_edges_lines edges :=
      create_text_edges_lines_congr
        (by unfold edges_maxl; rw [List.map_append, foldr_max_append_self])
        (by unfold edges_maxr; rw [List.map_append, foldr_max_append_self])
        (fun x => by simp [List.mem_append])
    unfold create_text_edges
    rw [isEmpty_append_self, hline]

/-! ### Column alignment of attributed node lines (C3)

Claim C3 asserts the padding width is computed over the *attributed subset*
of the node set.  The source (line 37) computes
`maxl = max(map(_getLen(0), nodes)) + 2` over *all* nodes.  The two agree
only when an attributed entry happens to carry the longest id. -/

/-- The width Claim C3 describes (over the attributed subset only); this
definition follows the claim wording, for comparison with `nodes_maxl`,
which follows the source. -/
def nodes_attr_maxl (nodes : List NodeT) : Nat :=
  ((nodes.filter (fun p => pyTruthy p.2)).map (fun p => p.1.length)).foldr max 0 + 2

/-- The concrete node set refuting Claim C3: the longest id belongs to an
attribute-less entry. -/
def exC3 : List NodeT := [("AAAA".data, none), ("B".data, some "color=red".data)]

/-- Counterexample to Claim C3 as stated: on `exC3` the attributed-subset
width is 3, but the rendered attributed line is padded to the full-set width
6 (`'"B"    [ color=red ] ;'`); the line the claim predicts is absent from
the output. -/
theorem temoa_C3_counterexample :
    nodes_attr_maxl exC3 = 3 ∧ nodes_maxl exC3 = 6 ∧
      node_line_attr (nodes_attr_maxl exC3) "B".data "color=red".data ∉
        create_text_nodes_lines exC3 ∧
      node_line_attr (nodes_maxl exC3) "B".data "color=red".data ∈
        create_text_nodes_lines exC3 := by decide

/-- Claim C3 (amended): the padding width is the maximum quoted-id length
over ALL entries (id length plus 2 for the quotes); every attributed entry
renders as its quoted id padded to exactly that width, so every attributed
line's opening bracket sits at the same character column `nodes_maxl + 1`
(0-based), determined by the longest id of the whole set. -/
theorem temoa_C3_alignment {nodes : List NodeT} {n : Str} {a : Option Str}
    (hmem : (n, a) ∈ nodes) (hattr : pyTruthy a = true) :
    node_line_attr (nodes_maxl nodes) n (a.getD []) ∈ create_text_nodes_lines nodes ∧
      (node_line_attr (nodes_maxl nodes) n (a.getD [])).take (nodes_maxl nodes) =
        pad (nodes_maxl nodes) (quote n) ∧
      (node_line_attr (nodes_maxl nodes) n (a.getD []))[nodes_maxl nodes + 1]? =
        some '[' := by
  have hb : n.length + 2 ≤ nodes_maxl nodes := nodes_maxl_bound hmem
  have hpadlen : (pad (nodes_maxl nodes) (quote n)).length = nodes_maxl nodes :=
    pad_length_of_le (by rw [quote_length]; omega)
  refine ⟨?_, ?_, ?_⟩
  · rw [create_text_nodes_lines_eq, mem_sortLines, List.mem_dedup]
    exact List.mem_map.mpr ⟨(n, a), hmem, by simp [node_render, hattr]⟩
  · unfold node_line_attr
    simp only [List.append_assoc]
    exact List.take_left' hpadlen
  · unfold node_line_attr
    simp only [List.append_assoc]
    rw [List.getElem?_append, hpadlen, if_neg (by omega)]
    have h1 : nodes_maxl nodes + 1 - nodes_maxl nodes = 1 := by omega
    rw [h1]
    rfl

/-- Witness for the amended C3 at the concrete set `exC3`. -/
theorem temoa_C3_witness :
    ((("B".data : Str), some "color=red".data) ∈ exC3 ∧
        pyTruthy (some "color=red".data) = true) ∧
      (node_line_attr (nodes_maxl exC3) "B".data
            ((some "color=red".data).getD []) ∈ create_text_nodes_lines exC3 ∧
        (node_line_attr (nodes_maxl exC3) "B".data
              ((some "color=red".data).getD [])).take (nodes_maxl exC3) =
          pad (nodes_maxl exC3) (quote "B".data) ∧
        (node_line_attr (nodes_maxl exC3) "B".data
            ((some "color=red".data).getD []))[nodes_maxl exC3 + 1]? = some '[') :=
  ⟨⟨by decide, by decide⟩, temoa_C3_alignment (by decide) (by decide)⟩

/-! ### Edge rendering and falsy attributes (C10) -/

/-- Claim C10: in `create_text_edges`, the quoted source id of every line is
padded to `edges_maxl`, the width computed over ALL edges (lines 73-74 use
the whole edge set); an attribute-less line consists of the padded source,
the arrow, and the UNPADDED quoted destination (`efmt_noa`, line 79); an
attributed line also has its source column padded to the same width; and an
edge whose attribute is the empty string renders exactly like one whose
attribute is absent (both are falsy at lines 83-84). -/
theorem temoa_C10_edge_alignment :
    (∀ (edges : List EdgeT) (s d : Str) (a : Option Str), (s, d, a) ∈ edges →
      (pyTruthy a = false →
        edge_line_noa (edges_maxl edges) s d ∈ create_text_edges_lines edges ∧
          (edge_line_noa (edges_maxl edges) s d).take (edges_maxl edges) =
            pad (edges_maxl edges) (quote s) ∧
          edge_line_noa (edges_maxl edges) s d =
            pad (edges_maxl edges) (quote s) ++ [' ', '-', '>', ' '] ++
              quote d ++ [' ', ';']) ∧
      (pyTruthy a = true →
        edge_line_attr (edges_maxl edges) (edges_maxr edges) s d (a.getD []) ∈
            create_text_edges_lines edges ∧
          (edge_line_attr (edges_maxl edges) (edges_maxr edges) s d
              (a.getD [])).take (edges_maxl edges) =
            pad (edges_maxl edges) (quote s))) ∧
    (∀ (s d : Str) (rest : List EdgeT) (indent : Nat),
      create_text_edges ((s, d, some []) :: rest) indent =
        create_text_edges ((s, d, none) :: rest) indent) := by
  constructor
  · intro edges s d a hmem
    have hb : s.length + 2 ≤ edges_maxl edges := edges_maxl_bound hmem
    have hpadlen : (pad (edges_maxl edges) (quote s)).length = edges_maxl edges :=
      pad_length_of_le (by rw [quote_length]; omega)
    constructor
    · intro hfal
      refine ⟨?_, ?_, rfl⟩
      · rw [create_text_edges_lines_eq, mem_sortLines, List.mem_dedup]
        exact List.mem_map.mpr ⟨(s, d, a), hmem, by simp [edge_render, hfal]⟩
      · unfold edge_line_noa
        simp only [List.append_assoc]
        exact List.take_left' hpadlen
    · intro htru
      constructor
      · rw [create_text_edges_lines_eq, mem_sortLines, List.mem_dedup]
        exact List.mem_map.mpr ⟨(s, d, a), hmem, by simp [edge_render, htru]⟩
      · unfold edge_line_attr
        simp only [List.append_assoc]
        exact List.take_left' hpadlen
  · intro s d rest indent
    rfl

/-- Witness for C10: a two-edge set in which the attribute-less edge has the
longer source id, so the attributed edge's source column is visibly padded,
and the attribute-less line's destination is unpadded. -/
theorem temoa_C10_witness :
    ((("abc".data : Str), ("z".data : Str), (none : Option Str)) ∈
        [(("abc".data : Str), ("z".data : Str), (none : Option Str)),
          ("x".data, "long".data, some "label=3".data)] ∧
      pyTruthy (none : Option Str) = false) ∧
      (edge_line_noa
          (edges_maxl [(("abc".data : Str), ("z".data : Str), (none : Option Str)),
            ("x".data, "long".data, some "label=3".data)]) "abc".data "z".data ∈
        create_text_edges_lines
          [(("abc".data : Str), ("z".data : Str), (none : Option Str)),
            ("x".data, "long".data, some "label=3".data)] ∧
        (edge_line_noa
            (edges_maxl [(("abc".data : Str), ("z".data : Str), (none : Option Str)),
              ("x".data, "long".data, some "label=3".data)]) "abc".data
            "z".data).take
          (edges_maxl [(("abc".data : Str), ("z".data : Str), (none : Option Str)),
            ("x".data, "long".data, some "label=3".data)]) =
          pad (edges_maxl [(("abc".data : Str), ("z".data : Str), (none : Option Str)),
            ("x".data, "long".data, some "label=3".data)]) (quote "abc".data) ∧
        edge_line_noa
            (edges_maxl [(("abc".data : Str), ("z".data : Str), (none : Option Str)),
              ("x".data, "long".data, some "label=3".data)]) "abc".data "z".data =
          pad (edges_maxl [(("abc".data : Str), ("z".data : Str), (none : Option Str)),
            ("x".data, "long".data, some "label=3".data)]) (quote "abc".data) ++
            [' ', '-', '>', ' '] ++ quote "z".data ++ [' ', ';']) :=
  ⟨⟨by decide, by decide⟩,
    (temoa_C10_edge_alignment.1 _ "abc".data "z".data none (by decide)).1 (by decide)⟩

/-! ### Renderer invocation and job outcomes (C7)

Every diagram job invokes the renderer as `call(cmd)` and discards the
returned exit status (e.g. lines 210-211 in
`CreateCompleteEnergySystemDiagram` and lines 766-767 in
`CreateMainModelDiagram`); the job function then falls off the end of its
body, so its Python return value is `None` regardless of the renderer
result.  The external renderer is modelled as a function from the command
tuple to an exit status. -/

/-- The renderer command `('dot', '-T'+ffmt, '-o'+fname+ffmt, fname+'dot')`
(lines 210 and 766). -/
def dot_cmd (ffmt fname : Str) : List Str :=
  ["dot".data, '-' :: 'T' :: ffmt, ('-' :: 'o' :: fname) ++ ffmt, fname ++ "dot".data]

/-- Tail of `CreateMainModelDiagram` (fname = 'simple_model.', lines
692 and 766-767): `call(cmd)` is executed as a statement, its exit status is
bound to nothing, and the function returns Python `None`. -/
def CreateMainModelDiagram_outcome (callFn : List Str → Int) (ffmt : Str) : Option Str :=
  let _rc := callFn (dot_cmd ffmt "simple_model.".data)
  none

/-- Tail of `CreateCompleteEnergySystemDiagram` (fname =
'all_vintages_model.', lines 196 and 210-211); same discard pattern. -/
def CreateCompleteEnergySystemDiagram_outcome (callFn : List Str → Int) (ffmt : Str) :
    Option Str :=
  let _rc := callFn (dot_cmd ffmt "all_vintages_model.".data)
  none

/-- Counterexample to Claim C7 as stated: a renderer exiting with status 1 is
NOT recorded as the issuing job's failed outcome -- the job's outcome is the
same Python `None` whether the renderer exits 0 or 1, so no batch result can
reflect the failure. -/
theorem temoa_C7_counterexample :
    CreateMainModelDiagram_outcome (fun _ => 1) "svg".data =
        CreateMainModelDiagram_outcome (fun _ => 0) "svg".data ∧
      CreateMainModelDiagram_outcome (fun _ => 1) "svg".data = none ∧
      CreateCompleteEnergySystemDiagram_outcome (fun _ => 1) "svg".data =
        CreateCompleteEnergySystemDiagram_outcome (fun _ => 0) "svg".data :=
  ⟨rfl, rfl, rfl⟩

/-- Claim C7 (amended): a renderer subprocess exiting with nonzero status is
ignored by the issuing job: `call`'s exit status is discarded, the job's
returned outcome is `None` for every renderer behaviour (so siblings are
unaffected and nothing in the batch records the failure). -/
theorem temoa_C7_exit_status_discarded (callA callB : List Str → Int) (ffmt : Str) :
    CreateMainModelDiagram_outcome callA ffmt =
        CreateMainModelDiagram_outcome callB ffmt ∧
      CreateMainModelDiagram_outcome callA ffmt = none ∧
      CreateCompleteEnergySystemDiagram_outcome callA ffmt =
        CreateCompleteEnergySystemDiagram_outcome callB ffmt ∧
      CreateCompleteEnergySystemDiagram_outcome callA ffmt = none :=
  ⟨rfl, rfl, rfl, rfl⟩

/-! ### The per-technology process diagrams (C5, C6)

`CreateProcessPartialGraphs` (lines 367-666) builds one diagram per
technology with one of two strategies.  `_create_separate` (lines 404-490)
returns `None` -- writing nothing -- when the technology never occurs in
`g_processInputs` (lines 415-418).  `_create_explicit` (lines 492-550)
computes `dot_fname = fname % (l_tech, 'dot')` but then opens `fname`
itself, the unformatted template string `'process_%s.%s'` (lines 537-538).

The domain model (temoa_lib, outside this file) is a read-only query
surface; it enters the embedding as explicit function-valued parameters.
The Graphviz template (`model_dot_fmt`) and the float formatter (`'%.2f'`)
are configuration text threaded through unchanged, modelled as opaque
parameters `tmpl` and `fmt2`.  Python sets are modelled as lists of added
elements: `create_text_nodes`/`create_text_edges` deduplicate and sort the
rendered statements, so every observable below is insensitive to the
representation (theorems C1/C2 above). -/

/-- Python `str` of an integer. -/
def intStr : Int → Str
  | Int.ofNat n => Nat.toDigits 10 n
  | Int.negSucc n => '-' :: Nat.toDigits 10 (n + 1)

/-- The read-only domain queries used by `CreateProcessPartialGraphs`:
`g_processInputs` iterates (period, tech, vintage) triples;
`ProcessInputs`/`ProcessOutputsByInput` list input and output carriers;
`PeriodCap`/`VintageCap` are capacity values (floats in the source,
modelled as rationals). -/
structure SepQuery where
  g_processInputs : List (Int × Str × Int)
  ProcessInputs : Int → Str → Int → List Str
  ProcessOutputsByInput : Int → Str → Int → Str → List Str
  PeriodCap : Int → Str → ℚ
  VintageCap : Str → Int → ℚ

/-- Fields substituted into the `separate_vintages` template
(`model_dot_fmt % dict(...)`, lines 471-489): the graph label and the six
serialized statement blocks; every other dict entry is a per-run constant
absorbed into `tmpl`. -/
structure SepFields where
  tech : Str
  bnodes : Str
  enodes : Str
  pnodes : Str
  vnodes : Str
  eedges : Str
  vedges : Str

/-- Configuration of `CreateProcessPartialGraphs` (colors, image format,
`options.show_capacity`, the color rotation list, the artifact template and
the `'%.2f'` float formatter). -/
structure SepConfig where
  show_capacity : Bool
  color_list : List Str
  sb_incom_color : Str
  sb_outcom_color : Str
  arrowheadin_color : Str
  arrowheadout_color : Str
  ffmt : Str
  fmt2 : ℚ → Str
  tmpl : SepFields → Str

/-- `niattr % l_inp` (lines 426, with `url_fmt` of line 398). -/
def sep_niattr (c : SepConfig) (inp : Str) : Str :=
  "color=\"".data ++ c.sb_incom_color ++
    "\", href=\"../commodities/commodity_".data ++ inp ++ '.' :: c.ffmt ++ ['"']

/-- `noattr % l_out` (line 427). -/
def sep_noattr (c : SepConfig) (out : Str) : Str :=
  "color=\"".data ++ c.sb_outcom_color ++
    "\", href=\"../commodities/commodity_".data ++ out ++ '.' :: c.ffmt ++ ['"']

/-- `eattr % rainbow` (line 428). -/
def sep_eattr (rainbow : Str) : Str := "color=\"".data ++ rainbow ++ ['"']

/-- `ciattr` (line 432). -/
def sep_ciattr (c : SepConfig) : Str :=
  "color=\"".data ++ c.arrowheadin_color ++ "\", lhead=\"cluster_vintage\"".data

/-- `coattr` (line 433). -/
def sep_coattr (c : SepConfig) : Str :=
  "color=\"".data ++ c.arrowheadout_color ++ "\", ltail=\"cluster_period\"".data

/-- `pattr_fmt % (l_per, value(PeriodCap[...]))` (lines 436, 444). -/
def sep_pattr_str (c : SepConfig) (per : Int) (cap : ℚ) : Str :=
  "label=\"p".data ++ intStr per ++ "\\nTotal Capacity: ".data ++ c.fmt2 cap ++ ['"']

/-- `vattr_fmt % (l_vin, value(VintageCap[...]))` (lines 437, 445). -/
def sep_vattr_str (c : SepConfig) (vin : Int) (cap : ℚ) : Str :=
  "label=\"v".data ++ intStr vin ++ "\\nCapacity: ".data ++ c.fmt2 cap ++ ['"']

/-- Mutable loop state of `_create_separate`: the color-rotation counter `j`
and the six accumulating sets. -/
structure SepState where
  j : Nat
  bnodes : List NodeT
  enodes : List NodeT
  pnodes : List NodeT
  vnodes : List NodeT
  eedges : List EdgeT
  vedges : List EdgeT

/-- One iteration of the main loop of `_create_separate` (lines 440-455):
skip triples of other technologies, add the period/vintage nodes, then for
every (input, output) pair rotate the rainbow color and add the carrier
nodes and edges. -/
def sep_step (q : SepQuery) (c : SepConfig) (l_tech : Str) (midp midv : Int)
    (st : SepState) (t : Int × Str × Int) : SepState :=
  if t.2.1 ≠ l_tech then st
  else
    let l_per := t.1
    let l_vin := t.2.2
    let pattr : Option Str :=
      if c.show_capacity then some (sep_pattr_str c l_per (q.PeriodCap l_per l_tech))
      else none
    let vattr : Option Str :=
      if c.show_capacity then some (sep_vattr_str c l_vin (q.VintageCap l_tech l_vin))
      else none
    let st1 := { st with
      pnodes := st.pnodes ++ [('p' :: '_' :: intStr l_per, pattr)]
      vnodes := st.vnodes ++ [('v' :: '_' :: intStr l_vin, vattr)] }
    (q.ProcessInputs l_per l_tech l_vin).foldl (fun st2 l_inp =>
      (q.ProcessOutputsByInput l_per l_tech l_vin l_inp).foldl (fun st3 l_out =>
        let rainbow := c.color_list.getD st3.j []
        { st3 with
          j := (st3.j + 1) % c.color_list.length
          enodes := st3.enodes ++ [(l_inp, some (sep_niattr c l_inp))]
          bnodes := st3.bnodes ++ [(l_out, some (sep_noattr c l_out))]
          eedges := st3.eedges ++
            [(l_inp, 'v' :: '_' :: intStr midv, some (sep_ciattr c)),
              ('p' :: '_' :: intStr midp, l_out, some (sep_coattr c))]
          vedges := st3.vedges ++
            [('v' :: '_' :: intStr l_vin, 'p' :: '_' :: intStr l_per,
              some (sep_eattr rainbow))] }) st2) st1

/-- `_create_separate(l_tech)` (lines 404-490), returning
`(dot_fname, artifact text)` or `None`.  The guard of lines 409-418: the
periods and vintages in which `l_tech` occurs in `g_processInputs`; if there
are none the job returns `None` before any file is opened.  Otherwise
`sorted(...)[len//2]` picks the middle period and vintage, the main loop
accumulates the six statement sets, and the template is written to
`fname % (l_tech, 'dot')`. -/
def create_separate_job (q : SepQuery) (c : SepConfig) (l_tech : Str) :
    Option (Str × Str) :=
  let triples := q.g_processInputs.filter (fun t => t.2.1 == l_tech)
  let periods := (triples.map (fun t => t.1)).dedup
  let vintages := (triples.map (fun t => t.2.2)).dedup
  if periods.isEmpty || vintages.isEmpty then none
  else
    let sortedP := periods.insertionSort (· ≤ ·)
    let sortedV := vintages.insertionSort (· ≤ ·)
    let mid_period := sortedP.getD (sortedP.length / 2) 0
    let mid_vintage := sortedV.getD (sortedV.length / 2) 0
    let st := q.g_processInputs.foldl (sep_step q c l_tech mid_period mid_vintage)
      ⟨0, [], [], [], [], [], []⟩
    let fields : SepFields :=
      { tech := l_tech
        bnodes := create_text_nodes st.bnodes 2
        enodes := create_text_nodes st.enodes 2
        pnodes := create_text_nodes st.pnodes 2
        vnodes := create_text_nodes st.vnodes 2
        eedges := create_text_edges st.eedges 2
        vedges := create_text_edges st.vedges 2 }
    some ("process_".data ++ l_tech ++ ".dot".data, c.tmpl fields)

/-- The files `_create_separate` writes: none when it returns `None`,
otherwise the single artifact at `dot_fname` (line 471). -/
def create_separate_writes (q : SepQuery) (c : SepConfig) (l_tech : Str) :
    List (Str × Str) :=
  match create_separate_job q c l_tech with
  | none => []
  | some w => [w]

/-- Fields substituted into the `explicit_vintages` template (lines 538-549):
the technology label and the four serialized statement blocks. -/
structure ExplFields where
  tech : Str
  bnodes : Str
  enodes : Str
  vnodes : Str
  edges : Str

/-- Configuration of the `explicit_vintages` strategy. -/
structure ExplConfig where
  show_capacity : Bool
  commodity_color : Str
  tech_color : Str
  arrowheadin_color : Str
  arrowheadout_color : Str
  ffmt : Str
  fmt2 : ℚ → Str
  tmpl : ExplFields → Str

/-- `nattr % carrier` (line 495). -/
def expl_nattr (c : ExplConfig) (carrier : Str) : Str :=
  "color=\"".data ++ c.commodity_color ++
    "\", href=\"../commodities/commodity_".data ++ carrier ++ '.' :: c.ffmt ++ ['"']

/-- `vattr % attr_args` (lines 496, 501-503, 524): without `show_capacity`
the template has no placeholders; with it, period, vintage and capacity are
substituted. -/
def expl_vattr (c : ExplConfig) (l_per l_vin : Int) (val : ℚ) : Str :=
  if c.show_capacity then
    "color=\"".data ++ c.tech_color ++ "\", label=\"p".data ++ intStr l_per ++
      '_' :: 'v' :: intStr l_vin ++ "\\nCapacity = ".data ++ c.fmt2 val ++
      "\", href=\"model.".data ++ c.ffmt ++ ['"']
  else
    "color=\"".data ++ c.tech_color ++ "\", href=\"model.".data ++ c.ffmt ++ ['"']

/-- `etattr % l_inp` (line 497). -/
def expl_etattr (c : ExplConfig) (inp : Str) : Str :=
  "color=\"".data ++ c.arrowheadin_color ++ "\", sametail=\"".data ++ inp ++ ['"']

/-- `efattr % l_out` (line 498). -/
def expl_efattr (c : ExplConfig) (out : Str) : Str :=
  "color=\"".data ++ c.arrowheadout_color ++ "\", samehead=\"".data ++ out ++ ['"']

/-- `v_fmt % (l_per, l_vin)` = `'p%s_v%s'` (line 493). -/
def expl_vname (l_per l_vin : Int) : Str :=
  'p' :: intStr l_per ++ '_' :: 'v' :: intStr l_vin

/-- Accumulated sets of `_create_explicit` (line 506). -/
structure ExplState where
  bnodes : List NodeT
  enodes : List NodeT
  vnodes : List NodeT
  edges : List EdgeT

/-- One iteration of the loop of `_create_explicit` (lines 508-526). -/
def expl_step (q : SepQuery) (c : ExplConfig) (l_tech : Str)
    (st : ExplState) (t : Int × Str × Int) : ExplState :=
  if t.2.1 ≠ l_tech then st
  else
    let l_per := t.1
    let l_vin := t.2.2
    (q.ProcessInputs l_per l_tech l_vin).foldl (fun st2 l_inp =>
      (q.ProcessOutputsByInput l_per l_tech l_vin l_inp).foldl (fun st3 l_out =>
        { st3 with
          bnodes := st3.bnodes ++ [(l_inp, some (expl_nattr c l_inp))]
          enodes := st3.enodes ++ [(l_out, some (expl_nattr c l_out))]
          vnodes := st3.vnodes ++
            [(expl_vname l_per l_vin,
              some (expl_vattr c l_per l_vin (q.VintageCap l_tech l_vin)))]
          edges := st3.edges ++
            [(l_inp, expl_vname l_per l_vin, some (expl_etattr c l_inp)),
              (expl_vname l_per l_vin, l_out, some (expl_efattr c l_out))] }) st2) st

/-- `_create_explicit(l_tech)` (lines 492-550).  Returns
`(dot_fname, artifact text)` or `None` when no set was populated (lines
528-532).  NOTE the write itself (line 538) opens `fname` -- the literal,
unformatted `'process_%s.%s'` -- not the just-computed `dot_fname`; see
`create_explicit_writes`. -/
def create_explicit_job (q : SepQuery) (c : ExplConfig) (l_tech : Str) :
    Option (Str × Str) :=
  let st := q.g_processInputs.foldl (expl_step q c l_tech) ⟨[], [], [], []⟩
  if st.bnodes.isEmpty || st.enodes.isEmpty || st.vnodes.isEmpty || st.edges.isEmpty
  then none
  else
    let fields : ExplFields :=
      { tech := l_tech
        bnodes := create_text_nodes st.bnodes 2
        enodes := create_text_nodes st.enodes 2
        vnodes := create_text_nodes st.vnodes 1
        edges := create_text_edges st.edges 1 }
    some ("process_".data ++ l_tech ++ ".dot".data, c.tmpl fields)

/-- The file `_create_explicit` writes (lines 537-538): `open(fname, 'w')`
with `fname = 'process_%s.%s'` still unformatted, so EVERY technology's
artifact goes to the same literal path `process_%s.%s`; `dot_fname` is
computed and returned but not used for the write. -/
def create_explicit_writes (q : SepQuery) (c : ExplConfig) (l_tech : Str) :
    List (Str × Str) :=
  match create_explicit_job q c l_tech with
  | none => []
  | some w => [("process_%s.%s".data, w.2)]

/-- `'label="%.2f"' % flow`: the numeric label attached to an in-use flow
edge (lines 871-872 and 1307/1341). -/
def flow_label (fmt2 : ℚ → Str) (v : ℚ) : Str := "label=\"".data ++ fmt2 v ++ ['"']

/-- Read-only domain queries of `CreateTechResultsDiagrams` (lines 771-914).
Float-valued variables are modelled as rationals. -/
structure TRQuery where
  ProcessVintages : Int → Str → List Int
  activity : Int → Str → Int → ℚ
  capacity : Str → Int → ℚ
  total_cap : Int → Str → ℚ
  ProcessInputs : Int → Str → Int → List Str
  ProcessOutputsByInput : Int → Str → Int → Str → List Str
  time_season : List Str
  time_of_day : List Str
  V_FlowIn : Int → Str → Str → Str → Str → Int → Str → ℚ
  V_FlowOut : Int → Str → Str → Str → Str → Int → Str → ℚ

/-- Fields substituted into the tech-results template (lines 890-904). -/
structure TRFields where
  tech : Str
  period : Int
  total_cap : ℚ
  enodes : Str
  vnodes : Str
  iedges : Str
  oedges : Str

/-- Configuration of `CreateTechResultsDiagrams`. -/
structure TRConfig where
  ffmt : Str
  fmt2 : ℚ → Str
  tmpl : TRFields → Str

/-- `enode_attr_fmt % (carrier, per)` (line 840). -/
def tr_enode_attr (c : TRConfig) (carrier : Str) (per : Int) : Str :=
  "href=\"../commodities/rc_".data ++ carrier ++ '_' :: intStr per ++
    '.' :: c.ffmt ++ ['"']

/-- `vnode_attr_fmt % (tech, per, l_vin, l_vin, cap)` (lines 841-842,
868-869). -/
def tr_vnode_attr (c : TRConfig) (tech : Str) (per vin : Int) (cap : ℚ) : Str :=
  "href=\"results_".data ++ tech ++ '_' :: 'p' :: intStr per ++ 'v' :: intStr vin ++
    "_segments.".data ++ c.ffmt ++ "\", label=\"".data ++ intStr vin ++
    "\\nCap: ".data ++ c.fmt2 cap ++ ['"']

/-- `sum(value(M.V_FlowIn[per, ssn, tod, inp, tech, vin, out]) for ssn in
M.time_season for tod in M.time_of_day)` (lines 855-859). -/
def tr_flowin (q : TRQuery) (per : Int) (tech : Str) (vin : Int) (inp out : Str) : ℚ :=
  (q.time_season.flatMap (fun ssn => q.time_of_day.map (fun tod =>
    q.V_FlowIn per ssn tod inp tech vin out))).sum

/-- Same for `V_FlowOut` (lines 860-864). -/
def tr_flowout (q : TRQuery) (per : Int) (tech : Str) (vin : Int) (inp out : Str) : ℚ :=
  (q.time_season.flatMap (fun ssn => q.time_of_day.map (fun tod =>
    q.V_FlowOut per ssn tod inp tech vin out))).sum

/-- Accumulated sets of one (period, tech) scope (line 844). -/
structure TRState where
  enodes : List NodeT
  vnodes : List NodeT
  iedges : List EdgeT
  oedges : List EdgeT

/-- One vintage iteration of `CreateTechResultsDiagrams` (lines 846-872):
vintages with falsy (zero) activity are skipped; otherwise every
(input, output) pair contributes the vintage node, both carrier nodes and
the labelled flow edges. -/
def tr_step (q : TRQuery) (c : TRConfig) (per : Int) (tech : Str)
    (st : TRState) (l_vin : Int) : TRState :=
  if q.activity per tech l_vin = 0 then st
  else
    let cap := q.capacity tech l_vin
    let vnode := intStr l_vin
    (q.ProcessInputs per tech l_vin).foldl (fun st2 l_inp =>
      (q.ProcessOutputsByInput per tech l_vin l_inp).foldl (fun st3 l_out =>
        { st3 with
          vnodes := st3.vnodes ++ [(vnode, some (tr_vnode_attr c tech per l_vin cap))]
          enodes := st3.enodes ++
            [(l_inp, some (tr_enode_attr c l_inp per)),
              (l_out, some (tr_enode_attr c l_out per))]
          iedges := st3.iedges ++
            [(l_inp, vnode, some (flow_label c.fmt2
              (tr_flowin q per tech l_vin l_inp l_out)))]
          oedges := st3.oedges ++
            [(vnode, l_out, some (flow_label c.fmt2
              (tr_flowout q per tech l_vin l_inp l_out)))] }) st2) st

/-- One (period, tech) scope of `CreateTechResultsDiagrams` (lines 836-905):
if no vintage contributed (`if not vnodes: continue`, lines 874-875) the
scope is skipped and no artifact is opened; otherwise the four blocks are
serialized and written to `'results_%s_%s.' % (tech, per) + 'dot'`
(lines 888-889). -/
def tech_results_job (q : TRQuery) (c : TRConfig) (per : Int) (tech : Str) :
    Option (Str × Str) :=
  let st := (q.ProcessVintages per tech).foldl (tr_step q c per tech) ⟨[], [], [], []⟩
  if st.vnodes.isEmpty then none
  else
    some ("results_".data ++ tech ++ '_' :: intStr per ++ ".dot".data,
      c.tmpl
        { tech := tech, period := per, total_cap := q.total_cap per tech
          enodes := create_text_nodes st.enodes 2
          vnodes := create_text_nodes st.vnodes 2
          iedges := create_text_edges st.iedges 2
          oedges := create_text_edges st.oedges 2 })

/-- The files one (period, tech) scope writes. -/
def tech_results_writes (q : TRQuery) (c : TRConfig) (per : Int) (tech : Str) :
    List (Str × Str) :=
  match tech_results_job q c per tech with
  | none => []
  | some w => [w]

/-- Claim C5: a diagram job whose scoped domain query yields no data returns
a `None` -- nothing to draw -- outcome and writes no artifact: for
`_create_separate`, a technology absent from `g_processInputs` trips the
guard of lines 415-418 before any file is opened; for
`CreateTechResultsDiagrams`, a (period, tech) scope with no vintages leaves
`vnodes` empty and is skipped by `continue` (lines 874-875) with no file
opened.  Both embeddings are total functions, so no exception is raised. -/
theorem temoa_C5_empty_scope_skipped :
    (∀ (q : SepQuery) (c : SepConfig) (l_tech : Str),
      q.g_processInputs.filter (fun t => t.2.1 == l_tech) = [] →
        create_separate_job q c l_tech = none ∧
          create_separate_writes q c l_tech = []) ∧
    (∀ (q : TRQuery) (c : TRConfig) (per : Int) (tech : Str),
      q.ProcessVintages per tech = [] →
        tech_results_job q c per tech = none ∧
          tech_results_writes q c per tech = []) := by
  constructor
  · intro q c l_tech h
    have hjob : create_separate_job q c l_tech = none := by
      unfold create_separate_job
      rw [h]
      rfl
    exact ⟨hjob, by unfold create_separate_writes; rw [hjob]⟩
  · intro q c per tech h
    have hjob : tech_results_job q c per tech = none := by
      unfold tech_results_job
      rw [h]
      rfl
    exact ⟨hjob, by unfold tech_results_writes; rw [hjob]⟩

/-- A domain query with no data at all (used to witness C5). -/
def sepQ0 : SepQuery :=
  ⟨[], fun _ _ _ => [], fun _ _ _ _ => [], fun _ _ => 0, fun _ _ => 0⟩

/-- A trivial configuration for `_create_separate` (used to witness C5). -/
def sepC0 : SepConfig :=
  ⟨false, [], [], [], [], [], [], fun _ => [], fun _ => []⟩

/-- A tech-results query with no data (used to witness C5). -/
def trQ0 : TRQuery :=
  ⟨fun _ _ => [], fun _ _ _ => 0, fun _ _ => 0, fun _ _ => 0, fun _ _ _ => [],
    fun _ _ _ _ => [], [], [], fun _ _ _ _ _ _ _ => 0, fun _ _ _ _ _ _ _ => 0⟩

/-- A trivial tech-results configuration (used to witness C5). -/
def trC0 : TRConfig := ⟨[], fun _ => [], fun _ => []⟩

/-- Witness for C5 at a technology that never occurs in the data. -/
theorem temoa_C5_witness :
    (sepQ0.g_processInputs.filter (fun t => t.2.1 == ("wind".data : Str)) = [] ∧
        create_separate_job sepQ0 sepC0 "wind".data = none ∧
        create_separate_writes sepQ0 sepC0 "wind".data = []) ∧
      (trQ0.ProcessVintages 2010 "wind".data = [] ∧
        tech_results_job trQ0 trC0 2010 "wind".data = none ∧
        tech_results_writes trQ0 trC0 2010 "wind".data = []) :=
  ⟨⟨rfl, temoa_C5_empty_scope_skipped.1 sepQ0 sepC0 "wind".data rfl⟩,
    ⟨rfl, temoa_C5_empty_scope_skipped.2 trQ0 trC0 2010 "wind".data rfl⟩⟩

/-- Query data for C6: two distinct technologies, each actually used (used
to evaluate `_create_explicit` at the failing input). -/
def explQ1 : SepQuery :=
  ⟨[(2010, "coal".data, 2005), (2010, "gas".data, 2005)],
    fun _ _ _ => [['c']], fun _ _ _ _ => [['e']], fun _ _ => 0, fun _ _ => 1⟩

/-- Trivial configuration for `_create_explicit` (used by C6). -/
def explC1 : ExplConfig :=
  ⟨false, [], [], [], [], [], fun _ => [], fun _ => []⟩

/-- Claim C6 evaluated at the failing input: under the `explicit_vintages`
strategy, the jobs for the distinct technologies 'coal' and 'gas' BOTH write
their artifact to the same literal path `process_%s.%s`, because line 538
opens `fname` (the unformatted template) instead of the computed
`dot_fname`; the correctly formatted per-technology names are computed and
returned (final conjuncts) but not written to. -/
theorem temoa_C6_path_collision :
    (create_explicit_writes explQ1 explC1 "coal".data).map Prod.fst =
        ["process_%s.%s".data] ∧
      (create_explicit_writes explQ1 explC1 "gas".data).map Prod.fst =
        ["process_%s.%s".data] ∧
      ("coal".data : Str) ≠ "gas".data ∧
      (create_explicit_job explQ1 explC1 "coal".data).map Prod.fst =
        some "process_coal.dot".data ∧
      (create_explicit_job explQ1 explC1 "gas".data).map Prod.fst =
        some "process_gas.dot".data := by decide

/-! ### The significance threshold in the per-period results diagram (C9)

`CreateMainResultsDiagram` (lines 1196-1415), body of the period loop
(lines 1322-1356): for each technology with available capacity, each
vintage and each input (resp. output) carrier, the energy-flow value is
compared against `epsilon = 0.005` (line 1316); flows at or above the
threshold join the in-use edge set with a `label="%.2f"` attribute, flows
below it join the unused (attribute-less) edge set.  Queries are
specialized to the fixed period `pp` of the loop. -/

/-- `epsilon = 0.005` (line 1316).  The source value is a float literal;
flow values are modelled as rationals. -/
def mrEpsilon : ℚ := 1 / 200

/-- The domain queries used by the flow partition of
`CreateMainResultsDiagram`, specialized to one period: `hasCap tt` is
`(pp, tt) in V_Cap` (line 1329), `EI ii tt` is
`value(EI[pp, ii, tt])` (line 1340), `EO tt oo` is
`value(EO[pp, tt, oo])` (line 1348). -/
structure MRQuery where
  tech_all : List Str
  hasCap : Str → Bool
  ProcessVintages : Str → List Int
  ProcessInputs : Str → Int → List Str
  ProcessOutputs : Str → Int → List Str
  EI : Str → Str → ℚ
  EO : Str → Str → ℚ

/-- The in-use input-flow edge set `eflowsi` (lines 1340-1343): one labelled
edge per iterated (tech, vintage, input) with flow at or above the
threshold. -/
def mr_eflowsi (q : MRQuery) (fmt2 : ℚ → Str) : List EdgeT :=
  (q.tech_all.filter q.hasCap).flatMap (fun tt =>
    (q.ProcessVintages tt).flatMap (fun vv =>
      (q.ProcessInputs tt vv).filterMap (fun ii =>
        if mrEpsilon ≤ q.EI ii tt then some (ii, tt, some (flow_label fmt2 (q.EI ii tt)))
        else none)))

/-- The in-use output-flow edge set `eflowso` (lines 1348-1351). -/
def mr_eflowso (q : MRQuery) (fmt2 : ℚ → Str) : List EdgeT :=
  (q.tech_all.filter q.hasCap).flatMap (fun tt =>
    (q.ProcessVintages tt).flatMap (fun vv =>
      (q.ProcessOutputs tt vv).filterMap (fun oo =>
        if mrEpsilon ≤ q.EO tt oo then some (tt, oo, some (flow_label fmt2 (q.EO tt oo)))
        else none)))

/-- The unused flow edge set `dflows` (lines 1344-1345 and 1352-1353):
attribute-less edges for flows below the threshold, from both the input and
the output side. -/
def mr_dflows (q : MRQuery) : List EdgeT :=
  (q.tech_all.filter q.hasCap).flatMap (fun tt =>
    (q.ProcessVintages tt).flatMap (fun vv =>
      (q.ProcessInputs tt vv).filterMap (fun ii =>
        if mrEpsilon ≤ q.EI ii tt then none else some (ii, tt, none)) ++
      (q.ProcessOutputs tt vv).filterMap (fun oo =>
        if mrEpsilon ≤ q.EO tt oo then none else some (tt, oo, none))))

/-- Claim C9: in the per-period results diagram, flows are partitioned by
the 0.005 threshold: every iterated input flow at or above 0.005 lands in
the in-use group `eflowsi` with its numeric label, every one below lands in
the unused group `dflows`; symmetrically for output flows via `eflowso`;
and conversely every in-use edge arises from some iterated flow at or above
the threshold. -/
theorem temoa_C9_threshold_partition {q : MRQuery} {fmt2 : ℚ → Str} {tt : Str}
    {vv : Int} (htt : tt ∈ q.tech_all) (hcap : q.hasCap tt = true)
    (hvv : vv ∈ q.ProcessVintages tt) :
    (∀ ii ∈ q.ProcessInputs tt vv,
      (mrEpsilon ≤ q.EI ii tt →
        (ii, tt, some (flow_label fmt2 (q.EI ii tt))) ∈ mr_eflowsi q fmt2) ∧
      (q.EI ii tt < mrEpsilon → (ii, tt, (none : Option Str)) ∈ mr_dflows q)) ∧
    (∀ oo ∈ q.ProcessOutputs tt vv,
      (mrEpsilon ≤ q.EO tt oo →
        (tt, oo, some (flow_label fmt2 (q.EO tt oo))) ∈ mr_eflowso q fmt2) ∧
      (q.EO tt oo < mrEpsilon → (tt, oo, (none : Option Str)) ∈ mr_dflows q)) ∧
    (∀ x ∈ mr_eflowsi q fmt2, ∃ tt2 vv2 ii2, tt2 ∈ q.tech_all ∧
      q.hasCap tt2 = true ∧ vv2 ∈ q.ProcessVintages tt2 ∧
      ii2 ∈ q.ProcessInputs tt2 vv2 ∧ mrEpsilon ≤ q.EI ii2 tt2 ∧
      x = (ii2, tt2, some (flow_label fmt2 (q.EI ii2 tt2)))) := by
  have htt2 : tt ∈ q.tech_all.filter q.hasCap := List.mem_filter.mpr ⟨htt, hcap⟩
  refine ⟨?_, ?_, ?_⟩
  · intro ii hii
    constructor
    · intro hge
      unfold mr_eflowsi
      exact List.mem_flatMap.mpr ⟨tt, htt2, List.mem_flatMap.mpr ⟨vv, hvv,
        List.mem_filterMap.mpr ⟨ii, hii, by rw [if_pos hge]⟩⟩⟩
    · intro hlt
      unfold mr_dflows
      exact List.mem_flatMap.mpr ⟨tt, htt2, List.mem_flatMap.mpr ⟨vv, hvv,
        List.mem_append.mpr (Or.inl (List.mem_filterMap.mpr
          ⟨ii, hii, by rw [if_neg (not_le.mpr hlt)]⟩))⟩⟩
  · intro oo hoo
    constructor
    · intro hge
      unfold mr_eflowso
      exact List.mem_flatMap.mpr ⟨tt, htt2, List.mem_flatMap.mpr ⟨vv, hvv,
        List.mem_filterMap.mpr ⟨oo, hoo, by rw [if_pos hge]⟩⟩⟩
    · intro hlt
      unfold mr_dflows
      exact List.mem_flatMap.mpr ⟨tt, htt2, List.mem_flatMap.mpr ⟨vv, hvv,
        List.mem_append.mpr (Or.inr (List.mem_filterMap.mpr
          ⟨oo, hoo, by rw [if_neg (not_le.mpr hlt)]⟩))⟩⟩
  · intro x hx
    unfold mr_eflowsi at hx
    rcases List.mem_flatMap.mp hx with ⟨tt2, htt2m, hx2⟩
    rcases List.mem_flatMap.mp hx2 with ⟨vv2, hvv2, hx3⟩
    rcases List.mem_filterMap.mp hx3 with ⟨ii2, hii2, hval⟩
    by_cases hge : mrEpsilon ≤ q.EI ii2 tt2
    · rw [if_pos hge] at hval
      obtain ⟨h1, h2⟩ := List.mem_filter.mp htt2m
      exact ⟨tt2, vv2, ii2, h1, h2, hvv2, hii2, hge, (Option.some.inj hval).symm⟩
    · rw [if_neg hge] at hval
      exact Option.noConfusion hval

/-- Concrete one-period query for the C9 witness: technology 't' with one
vintage, input 'h' flowing at 1 (significant) and input 'l' flowing at 0
(insignificant), output 'o' flowing at 1. -/
def mrQ1 : MRQuery :=
  { tech_all := [['t']]
    hasCap := fun _ => true
    ProcessVintages := fun _ => [0]
    ProcessInputs := fun _ _ => [['h'], ['l']]
    ProcessOutputs := fun _ _ => [['o']]
    EI := fun ii _ => if ii = ['h'] then 1 else 0
    EO := fun _ _ => 1 }

/-- Trivial numeric formatter for the C9 witness. -/
def mrFmt0 : ℚ → Str := fun _ => ['x']

/-- Witness for C9: at `mrQ1`, the significant input flow of 'h' lands in
the in-use group and the insignificant flow of 'l' in the unused group. -/
theorem temoa_C9_witness :
    ((['t'] : Str) ∈ mrQ1.tech_all ∧ mrQ1.hasCap ['t'] = true ∧
        (0 : Int) ∈ mrQ1.ProcessVintages ['t'] ∧
        (['h'] : Str) ∈ mrQ1.ProcessInputs ['t'] 0 ∧
        (['l'] : Str) ∈ mrQ1.ProcessInputs ['t'] 0 ∧
        mrEpsilon ≤ mrQ1.EI ['h'] ['t'] ∧ mrQ1.EI ['l'] ['t'] < mrEpsilon) ∧
      (['h'], ['t'], some (flow_label mrFmt0 (mrQ1.EI ['h'] ['t']))) ∈
        mr_eflowsi mrQ1 mrFmt0 ∧
      ((['l'] : Str), (['t'] : Str), (none : Option Str)) ∈ mr_dflows mrQ1 := by
  have e1 : mrQ1.EI ['h'] ['t'] = 1 := rfl
  have e2 : mrQ1.EI ['l'] ['t'] = 0 := rfl
  have h1 : (['t'] : Str) ∈ mrQ1.tech_all := List.mem_singleton.mpr rfl
  have h2 : mrQ1.hasCap ['t'] = true := rfl
  have h3 : (0 : Int) ∈ mrQ1.ProcessVintages ['t'] := List.mem_singleton.mpr rfl
  have h4 : (['h'] : Str) ∈ mrQ1.ProcessInputs ['t'] 0 := by
    simp [mrQ1]
  have h5 : (['l'] : Str) ∈ mrQ1.ProcessInputs ['t'] 0 := by
    simp [mrQ1]
  have h6 : mrEpsilon ≤ mrQ1.EI ['h'] ['t'] := by
    rw [e1]; norm_num [mrEpsilon]
  have h7 : mrQ1.EI ['l'] ['t'] < mrEpsilon := by
    rw [e2]; norm_num [mrEpsilon]
  have main := @temoa_C9_threshold_partition mrQ1 mrFmt0 ['t'] 0 h1 h2 h3
  exact ⟨⟨h1, h2, h3, h4, h5, h6, h7⟩, (main.1 ['h'] h4).1 h6, (main.1 ['l'] h5).2 h7⟩

/-! ### The dispatcher `CreateModelDiagrams` (C8)

Lines 1494-1517: on Windows the nine diagram functions are run strictly
sequentially; otherwise each function is wrapped in `do_work` (acquire a
semaphore sized `MP.cpu_count()`, run the function, release) and launched
as its own `MP.Process`; the parent then `join`s every process.  Job
execution is modelled as a labelled transition system: a pending job may
enter `running` only while fewer than `C` jobs run (semaphore acquire), a
running job may finish (release).  The parent returns only after every
process is joined, and `CreateModelDiagrams` itself ends with an implicit
`return None`: no per-job outcome ever reaches the caller (worker results
are discarded by `MP.Process`, and `do_work` itself returns `None`). -/

/-- The lifecycle of one diagram job under the dispatcher. -/
inductive JStat
  | pending
  | running
  | done
deriving DecidableEq

/-- The number of jobs currently holding the semaphore. -/
def runningCount (s : List JStat) : Nat := s.count JStat.running

/-- One scheduler step of the dispatcher (lines 1503-1516): `start` models
`sem.acquire()` succeeding inside `do_work` (possible only while fewer than
`C` jobs hold the semaphore); `finish` models the job body returning and
`sem.release()`. -/
inductive DStep (C : Nat) : List JStat → List JStat → Prop
  | start (s : List JStat) (i : Nat) (h : i < s.length)
      (hp : s.get ⟨i, h⟩ = JStat.pending) (hc : runningCount s < C) :
      DStep C s (s.set i JStat.running)
  | finish (s : List JStat) (i : Nat) (h : i < s.length)
      (hr : s.get ⟨i, h⟩ = JStat.running) :
      DStep C s (s.set i JStat.done)

/-- Batch states reachable from `n` pending jobs under concurrency bound
`C`. -/
def DReach (C n : Nat) (s : List JStat) : Prop :=
  Relation.ReflTransGen (DStep C) (List.replicate n JStat.pending) s

/-- What `CreateModelDiagrams` returns to its caller: Python `None`,
regardless of what happened to the individual jobs (line 1517 ends the
function; nothing collects the worker process results). -/
def CreateModelDiagrams_return (_jobOutcomes : List (Option Str)) :
    Option (List (Option Str)) :=
  none

/-- Counterexample to Claim C8 as stated: the dispatcher does NOT return or
make retrievable the per-job outcomes -- its return value is Python `None`,
identical for a batch whose only job succeeded and a batch whose only job
failed, so no outcome information is retrievable from it. -/
theorem temoa_C8_counterexample :
    CreateModelDiagrams_return [some "ok".data] = CreateModelDiagrams_return [none] ∧
      CreateModelDiagrams_return [some "ok".data] = none :=
  ⟨rfl, rfl⟩

theorem runningCount_replicate_pending (n : Nat) :
    runningCount (List.replicate n JStat.pending) = 0 := by
  unfold runningCount
  rw [List.count_replicate]
  simp

theorem runningCount_set_running {s : List JStat} {i : Nat} (h : i < s.length)
    (hp : s.get ⟨i, h⟩ = JStat.pending) :
    runningCount (s.set i JStat.running) = runningCount s + 1 := by
  unfold runningCount
  rw [List.count_set _ _ _ _ h]
  rw [List.get_eq_getElem] at hp
  simp [hp]

theorem runningCount_set_done {s : List JStat} {i : Nat} (h : i < s.length)
    (hr : s.get ⟨i, h⟩ = JStat.running) :
    runningCount (s.set i JStat.done) = runningCount s - 1 := by
  unfold runningCount
  rw [List.count_set _ _ _ _ h]
  rw [List.get_eq_getElem] at hr
  simp [hr]

theorem runningCount_le_of_reach {C n : Nat} {s : List JStat} (h : DReach C n s) :
    runningCount s ≤ C := by
  induction h with
  | refl => rw [runningCount_replicate_pending]; omega
  | tail hreach hstep ih =>
    cases hstep with
    | start i hi hp hc => rw [runningCount_set_running hi hp]; omega
    | finish i hi hr => rw [runningCount_set_done hi hr]; omega

theorem reach_done_aux (C : Nat) (hC : 1 ≤ C) :
    ∀ (m : Nat) (pre : List JStat), runningCount pre = 0 →
      Relation.ReflTransGen (DStep C) (pre ++ List.replicate m JStat.pending)
        (pre ++ List.replicate m JStat.done) := by
  intro m
  induction m with
  | zero => intro pre _; exact Relation.ReflTransGen.refl
  | succ m ih =>
    intro pre hpre
    have hlen : pre.length < (pre ++ JStat.pending :: List.replicate m JStat.pending).length := by
      simp
    have hget : (pre ++ JStat.pending :: List.replicate m JStat.pending).get
        ⟨pre.length, hlen⟩ = JStat.pending := by
      rw [List.get_eq_getElem, List.getElem_append_right (Nat.le_refl _)]
      simp
    have hcount : runningCount (pre ++ JStat.pending :: List.replicate m JStat.pending) = 0 := by
      unfold runningCount at hpre ⊢
      rw [List.count_append, hpre, List.count_cons, List.count_replicate]
      simp
    have hset1 : (pre ++ JStat.pending :: List.replicate m JStat.pending).set
        pre.length JStat.running = pre ++ JStat.running :: List.replicate m JStat.pending := by
      rw [List.set_append]
      simp
    have hset2 : (pre ++ JStat.running :: List.replicate m JStat.pending).set
        pre.length JStat.done = pre ++ JStat.done :: List.replicate m JStat.pending := by
      rw [List.set_append]
      simp
    have hlen2 : pre.length < (pre ++ JStat.running :: List.replicate m JStat.pending).length := by
      simp
    have hget2 : (pre ++ JStat.running :: List.replicate m JStat.pending).get
        ⟨pre.length, hlen2⟩ = JStat.running := by
      rw [List.get_eq_getElem, List.getElem_append_right (Nat.le_refl _)]
      simp
    have step1 : DStep C (pre ++ JStat.pending :: List.replicate m JStat.pending)
        (pre ++ JStat.running :: List.replicate m JStat.pending) := by
      have := DStep.start (C := C)
        (pre ++ JStat.pending :: List.replicate m JStat.pending) pre.length hlen hget
        (by rw [hcount]; omega)
      rwa [hset1] at this
    have step2 : DStep C (pre ++ JStat.running :: List.replicate m JStat.pending)
        (pre ++ JStat.done :: List.replicate m JStat.pending) := by
      have := DStep.finish (C := C)
        (pre ++ JStat.running :: List.replicate m JStat.pending) pre.length hlen2 hget2
      rwa [hset2] at this
    have hpredone : runningCount (pre ++ [JStat.done]) = 0 := by
      unfold runningCount at hpre ⊢
      rw [List.count_append, hpre]
      simp
    have htail := ih (pre ++ [JStat.done]) hpredone
    rw [List.append_assoc, List.append_assoc] at htail
    simp only [List.singleton_append] at htail
    simp only [List.replicate_succ]
    exact Relation.ReflTransGen.head step1 (Relation.ReflTransGen.head step2 htail)

theorem reach_all_done (C n : Nat) (hC : 1 ≤ C) :
    DReach C n (List.replicate n JStat.done) := by
  have := reach_done_aux C hC n [] rfl
  simpa using this

/-- Claim C8 (amended): the dispatcher starts one process per job, gated by
a semaphore of size `C` (= `MP.cpu_count()` in the source, line 1503), so in
every reachable batch state at most `C` jobs execute simultaneously; and
every batch can be driven to the all-done state in which the parent's
`join` loop (lines 1514-1516) returns -- in particular by the strictly
sequential schedule used on Windows (lines 1494-1500).  However no per-job
outcome is returned or retrievable by the caller
(`temoa_C8_counterexample`). -/
theorem temoa_C8_bounded_dispatch :
    (∀ (C n : Nat) (s : List JStat), DReach C n s → runningCount s ≤ C) ∧
      (∀ (C n : Nat), 1 ≤ C → DReach C n (List.replicate n JStat.done)) :=
  ⟨fun _ _ _ h => runningCount_le_of_reach h, fun C n hC => reach_all_done C n hC⟩

/-- Witness for C8 at the spec's own instance: 9 jobs and concurrency bound
2 (the source batch has 9 diagram functions). -/
theorem temoa_C8_witness :
    (DReach 2 9 (List.replicate 9 JStat.pending) ∧
        runningCount (List.replicate 9 JStat.pending) ≤ 2) ∧
      (1 ≤ 2 ∧ DReach 2 9 (List.replicate 9 JStat.done)) :=
  ⟨⟨Relation.ReflTransGen.refl,
      temoa_C8_bounded_dispatch.1 2 9 _ Relation.ReflTransGen.refl⟩,
    ⟨by omega, temoa_C8_bounded_dispatch.2 2 9 (by omega)⟩⟩
